import Mathlib

/-!
Verification development for the tflint plugin SDK RPC client
(package `tflint`, file `client.go`).

The Go code is shallowly embedded: byte slices become `List Nat`, the
`error` interface becomes `Option GoError` (with `none` for Go's `nil`),
Go `panic` sites become the `Outcome.panic` constructor, and the external
collaborators (filesystem, RPC transport, the two expression parsers, the
cty value conversion) are passed in as explicit function parameters, as
the specification treats them as out-of-scope pure interfaces.

Stateful aspects needed by the properties are made explicit:
`WalkResourceAttributes` additionally returns the ordered trace of
arguments passed to the walker callback, and `EvaluateExpr` / `EmitIssue`
additionally return the RPC request that was handed to the transport
(or `none` when no request was sent).
-/

namespace Tflint

/-- Model of `hcl.Pos` (line, column, byte offset). -/
structure Pos where
  Line : Nat
  Column : Nat
  Byte : Nat
  deriving DecidableEq, Repr, Inhabited

/-- Model of `hcl.Range` (filename plus start and end positions). -/
structure Range where
  Filename : String
  Start : Pos
  End : Pos
  deriving DecidableEq, Repr, Inhabited

/-- Model of `hcl.Range.SliceBytes` from the external hcl library: slices
`b[Start.Byte : End.Byte]`, clamping the start into `[0, len b]` and the
end into `[start, len b]`. -/
def Range.SliceBytes (r : Range) (b : List Nat) : List Nat :=
  let s := min r.Start.Byte b.length
  let e := if r.End.Byte < s then s else min r.End.Byte b.length
  (b.drop s).take (e - s)

/-- Model of `hcl.DiagnosticSeverity` (only the two severities the client
inspects matter). -/
inductive DiagnosticSeverity where
  | diagError
  | diagWarning
  deriving DecidableEq, Repr

/-- Model of `hcl.Diagnostic` (severity plus summary text). -/
structure Diagnostic where
  Severity : DiagnosticSeverity
  Summary : String
  deriving DecidableEq, Repr

/-- Model of `hcl.Diagnostics.HasErrors`: true when some diagnostic has
error severity. -/
def HasErrors (diags : List Diagnostic) : Bool :=
  diags.any fun d => d.Severity == DiagnosticSeverity.diagError

/-- Model of a live `hcl.Expression` as the client consumes it: the client
only ever reads `expr.Range()`; `tag` keeps distinct parser outputs
distinguishable. -/
structure Expr where
  range : Range
  tag : Nat
  deriving DecidableEq, Repr, Inhabited

/-- Model of Go's `error` interface values as the client distinguishes
them dynamically:
* `appValue` — dynamic type `Error` (the SDK's leveled error struct, by
  value), carrying the fields `Code`, `Level`, `Message`, `Cause` that
  `client.go` reads and writes;
* `appPtr` — dynamic type `*Error` (a pointer to the same struct), which
  the type assertion `err.(Error)` in `EnsureNoError` does NOT match;
* `diagnostics` — an `hcl.Diagnostics` value returned as an error;
* `serverError` — `rpc.ServerError`, the string form in which `net/rpc`
  delivers a remote method's error through `Client.Call`;
* `foreign` — any other error value. -/
inductive GoError where
  | appValue (Code : Nat) (Level : Nat) (Message : String) (Cause : Option GoError)
  | appPtr (Code : Nat) (Level : Nat) (Message : String) (Cause : Option GoError)
  | diagnostics (diags : List Diagnostic)
  | serverError (msg : String)
  | foreign (tag : Nat) (msg : String)

/-- Modelled from the spec: the Blocking severity level constant
(`ErrorLevel`) of the SDK's leveled error, defined in `error.go` which is
not part of the sources; only its identity (distinct from `WarningLevel`)
matters. -/
def ErrorLevel : Nat := 0

/-- Modelled from the spec: the Warning severity level constant
(`WarningLevel`) of the SDK's leveled error, defined in `error.go` which
is not part of the sources; only its identity (distinct from `ErrorLevel`)
matters. -/
def WarningLevel : Nat := 1

/-- Modelled from the spec: the `TypeMismatchError` error-code constant
from `error.go`, which is not part of the sources; only its identity
matters. -/
def TypeMismatchError : Nat := 4

/-- Model of Go's `strings.HasSuffix s suffix`: `s` ends with `suffix`. -/
def hasSuffix (s suffix : String) : Bool :=
  decide (s.data.reverse.take suffix.data.length = suffix.data.reverse)

/-- The payload of a Go `panic`: `client.go` panics either with a
formatted string (`parseExpression`) or with the application error value
itself (`EnsureNoError`). -/
inductive PanicPayload where
  | str (s : String)
  | err (e : GoError)

/-- Result of running a piece of Go code that may panic. -/
inductive Outcome (α : Type) where
  | ok (a : α)
  | panic (p : PanicPayload)

/-- The two external expression parsers, treated by the spec as pure
functions `bytes, filename, position -> expression and diagnostics`:
`nativeParse` models `hclsyntax.ParseExpression` and `jsonParse` models
`json.ParseExpression`. -/
structure ParserEnv where
  nativeParse : List Nat → String → Pos → Expr × List Diagnostic
  jsonParse : List Nat → String → Pos → Expr × List Diagnostic

/-- Embedding of `parseExpression` (client.go lines 191-201): dispatch on
the filename suffix, panicking on any other suffix. -/
def parseExpression (env : ParserEnv) (src : List Nat) (filename : String)
    (start : Pos) : Outcome (Expr × List Diagnostic) :=
  if hasSuffix filename ".tf" then
    Outcome.ok (env.nativeParse src filename start)
  else if hasSuffix filename ".tf.json" then
    Outcome.ok (env.jsonParse src filename start)
  else
    Outcome.panic (PanicPayload.str ("Unexpected file: " ++ filename))

/-- Embedding of the wire struct `AttributesRequest`. -/
structure AttributesRequest where
  Resource : String
  AttributeName : String
  deriving DecidableEq, Repr

/-- Embedding of the wire struct `Attribute` (intermediate representation
of `hcl.Attribute`, with the expression as raw bytes). -/
structure Attribute where
  Name : String
  Expr : List Nat
  ExprRange : Tflint.Range
  Range : Tflint.Range
  NameRange : Tflint.Range
  deriving DecidableEq, Repr

/-- Embedding of the wire struct `AttributesResponse`. -/
structure AttributesResponse where
  Attributes : List Attribute
  Err : Option GoError

/-- Model of the materialized `hcl.Attribute` the walker receives. -/
structure HclAttribute where
  Name : String
  Expr : Tflint.Expr
  Range : Tflint.Range
  NameRange : Tflint.Range
  deriving DecidableEq, Repr

/-- The decode step the walk performs on one wire attribute
(client.go line 65): `parseExpression(attribute.Expr,
attribute.ExprRange.Filename, attribute.ExprRange.Start)`. -/
def decodeAttr (env : ParserEnv) (a : Attribute) : Outcome (Expr × List Diagnostic) :=
  parseExpression env a.Expr a.ExprRange.Filename a.ExprRange.Start

/-- The materialized attribute built for a wire attribute whose decode
succeeds (client.go lines 69-74); the panic branch is never reached when
the decode succeeds. -/
def matAttr (env : ParserEnv) (a : Attribute) : HclAttribute :=
  match decodeAttr env a with
  | Outcome.ok (e, _) => ⟨a.Name, e, a.Range, a.NameRange⟩
  | Outcome.panic _ => ⟨a.Name, default, a.Range, a.NameRange⟩

/-- The loop body of `WalkResourceAttributes` (client.go lines 64-79) over
the received attribute list. Returns the ordered trace of materialized
attributes passed to the walker together with the walk's returned error
(`none` for Go's `nil`). -/
def walkAttributes (env : ParserEnv) (walker : HclAttribute → Option GoError) :
    List Attribute → Outcome (List HclAttribute × Option GoError)
  | [] => Outcome.ok ([], none)
  | wa :: rest =>
    match decodeAttr env wa with
    | Outcome.panic p => Outcome.panic p
    | Outcome.ok (expr, diags) =>
      if HasErrors diags then
        Outcome.ok ([], some (GoError.diagnostics diags))
      else
        match walker ⟨wa.Name, expr, wa.Range, wa.NameRange⟩ with
        | some err => Outcome.ok ([⟨wa.Name, expr, wa.Range, wa.NameRange⟩], some err)
        | none =>
          match walkAttributes env walker rest with
          | Outcome.panic p => Outcome.panic p
          | Outcome.ok (visited, r) =>
            Outcome.ok (⟨wa.Name, expr, wa.Range, wa.NameRange⟩ :: visited, r)

/-- Embedding of `Client.WalkResourceAttributes` (client.go lines 53-82).
The transport is the parameter `call`, mapping the request to either a
transport-level error or the response the host wrote. The result carries
the ordered trace of walker invocations next to the returned error. -/
def WalkResourceAttributes (env : ParserEnv)
    (call : AttributesRequest → Except GoError AttributesResponse)
    (resource attributeName : String)
    (walker : HclAttribute → Option GoError) :
    Outcome (List HclAttribute × Option GoError) :=
  match call ⟨resource, attributeName⟩ with
  | Except.error e => Outcome.ok ([], some e)
  | Except.ok response =>
    match response.Err with
    | some e => Outcome.ok ([], some e)
    | none => walkAttributes env walker response.Attributes

/-- Model of `cty.Value`, the dynamically-typed evaluation result; its
internal structure is out of scope, only its identity is consumed by the
conversion function. -/
structure CtyValue where
  tag : Nat
  deriving DecidableEq, Repr, Inhabited

/-- Embedding of the wire struct `EvalExprRequest`; `Ret` is the opaque
destination shape descriptor. -/
structure EvalExprRequest where
  Expr : List Nat
  ExprRange : Range
  Ret : Nat
  deriving DecidableEq, Repr

/-- Embedding of the wire struct `EvalExprResponse`. -/
structure EvalExprResponse where
  Val : CtyValue
  Err : Option GoError

/-- Embedding of `Client.EvaluateExpr` (client.go lines 99-136). External
collaborators are parameters: `fs` models `ioutil.ReadFile`, `call` the
RPC transport, `fromCtyValue` the external `gocty.FromCtyValue` conversion
of the dynamic value into the destination (returning the conversion error
or `none`). The result pairs the request handed to the transport (`none`
when the file read failed and no request was sent) with the returned
error. -/
def EvaluateExpr (fs : String → Except GoError (List Nat))
    (call : EvalExprRequest → Except GoError EvalExprResponse)
    (fromCtyValue : CtyValue → Nat → Option GoError)
    (expr : Expr) (ret : Nat) : Option EvalExprRequest × Option GoError :=
  match fs expr.range.Filename with
  | Except.error err => (none, some err)
  | Except.ok src =>
    let req : EvalExprRequest := ⟨Range.SliceBytes expr.range src, expr.range, ret⟩
    match call req with
    | Except.error err => (some req, some err)
    | Except.ok response =>
      match response.Err with
      | some err => (some req, some err)
      | none =>
        match fromCtyValue response.Val ret with
        | some convErr =>
          (some req, some (GoError.appPtr TypeMismatchError ErrorLevel
            ("Invalid type expression in " ++ expr.range.Filename ++ ":"
              ++ toString expr.range.Start.Line)
            (some convErr)))
        | none => (some req, none)

/-- Modelled from the spec: the plugin-side `Rule` interface (defined
outside the sources); only the flattened projection matters here. -/
structure Rule where
  name : String
  severity : Nat
  enabled : Bool
  deriving DecidableEq, Repr

/-- Modelled from the spec: the transport-safe rule descriptor
(`RuleObject`, defined outside the sources): name, severity metadata,
enabled flag. -/
structure RuleObject where
  Name : String
  Severity : Nat
  Enabled : Bool
  deriving DecidableEq, Repr

/-- Modelled from the spec: `newObjectFromRule` (defined outside the
sources) projects a rule into its transport-safe descriptor, rebuilt
fresh on every emission. -/
def newObjectFromRule (r : Rule) : RuleObject :=
  ⟨r.name, r.severity, r.enabled⟩

/-- Modelled from the spec: the `Metadata` carrier (defined outside the
sources); `EmitIssue` only reads its `Expr` field. -/
structure Metadata where
  Expr : Expr
  deriving DecidableEq, Repr

/-- Embedding of the wire struct `EmitIssueRequest`. -/
structure EmitIssueRequest where
  Rule : RuleObject
  Message : String
  Location : Range
  Expr : List Nat
  ExprRange : Range
  deriving DecidableEq, Repr

/-- The host-side outcome of an `EmitIssue` round-trip as seen through
`net/rpc`: the transport itself may fail, or the remote method may return
an application error, or the call succeeds. -/
inductive RpcOutcome where
  | transportErr (e : GoError)
  | hostErr (msg : String)
  | ok

/-- Model of the error returned by `net/rpc`'s `Client.Call`: a transport
failure is returned as-is, and an error returned by the remote method is
delivered as `rpc.ServerError` carrying its message, so `Call` returns a
non-nil error in both cases. -/
def callError : RpcOutcome → Option GoError
  | RpcOutcome.transportErr e => some e
  | RpcOutcome.hostErr m => some (GoError.serverError m)
  | RpcOutcome.ok => none

/-- Embedding of `Client.EmitIssue` (client.go lines 150-168). `fs` models
`ioutil.ReadFile`; `call` maps the request to the round-trip outcome, and
the error `EmitIssue` observes from `rpcClient.Call` is `callError` of
that outcome (the response payload is discarded by the source:
`new(interface e)` is passed as reply). The result pairs the request
handed to the transport (`none` when no request was sent) with the
returned error. -/
def EmitIssue (fs : String → Except GoError (List Nat))
    (call : EmitIssueRequest → RpcOutcome)
    (rule : Rule) (message : String) (location : Range) (meta : Metadata) :
    Option EmitIssueRequest × Option GoError :=
  match fs meta.Expr.range.Filename with
  | Except.error err => (none, some err)
  | Except.ok src =>
    let req : EmitIssueRequest := ⟨newObjectFromRule rule, message, location,
      Range.SliceBytes meta.Expr.range src, meta.Expr.range⟩
    match callError (call req) with
    | some err => (some req, some err)
    | none => (some req, none)

/-- Embedding of `Client.EnsureNoError` (client.go lines 172-189). The
callback `proc` is modelled by its result (the source invokes it zero or
one times); the returned pair carries the combinator's result together
with a flag recording whether `proc` was invoked. The type assertion
`err.(Error)` matches only the dynamic type `Error` by value
(`GoError.appValue`); every other non-nil error takes the final `else`
branch. -/
def EnsureNoError (err : Option GoError) (proc : Option GoError) :
    Outcome (Option GoError × Bool) :=
  match err with
  | none => Outcome.ok (proc, true)
  | some e =>
    match e with
    | GoError.appValue code level message cause =>
      if level = WarningLevel then
        Outcome.ok (none, false)
      else if level = ErrorLevel then
        Outcome.ok (some (GoError.appValue code level message cause), false)
      else
        Outcome.panic (PanicPayload.err (GoError.appValue code level message cause))
    | other => Outcome.ok (some other, false)

/-- A wire attribute decodes cleanly: `parseExpression` on it returns a
result whose diagnostics carry no errors. -/
def decodesClean (env : ParserEnv) (a : Attribute) : Prop :=
  ∃ e d, decodeAttr env a = Outcome.ok (e, d) ∧ HasErrors d = false

/-- Concrete sample range used by witnesses. -/
def rangeW : Range := ⟨"main.tf", ⟨1, 1, 0⟩, ⟨1, 9, 8⟩⟩

/-- Concrete sample wire attribute used by witnesses (expression source is
the bytes of a short string literal). -/
def attrW : Attribute := ⟨"instance_type", [34, 116, 34], rangeW, rangeW, rangeW⟩

/-- A second concrete sample wire attribute used by witnesses. -/
def attrW2 : Attribute := ⟨"ami", [34, 97, 34], rangeW, rangeW, rangeW⟩

/-- Concrete parser environment used by witnesses: each parser returns an
expression tagged with the parser's identity and no diagnostics. -/
def envW : ParserEnv :=
  ⟨fun _ f p => (⟨⟨f, p, p⟩, 1⟩, []), fun _ f p => (⟨⟨f, p, p⟩, 2⟩, [])⟩

/-- If a string ends with `.tf.json` it does not end with `.tf` (their last
characters differ), so the first branch of `parseExpression` is never the
one taken for JSON configuration files. -/
theorem hasSuffix_tfjson_not_tf (s : String) (h : hasSuffix s ".tf.json" = true) :
    hasSuffix s ".tf" = false := by
  unfold hasSuffix at h ⊢
  rw [decide_eq_true_eq] at h
  rw [decide_eq_false_iff_not]
  intro hc
  have h3 : (".tf".data : List Char).length = 3 := by decide
  have h8 : (".tf.json".data : List Char).length = 8 := by decide
  rw [h8] at h
  rw [h3] at hc
  have ht : (s.data.reverse.take 8).take 3 = s.data.reverse.take 3 := by
    rw [List.take_take]
    norm_num
  rw [h, hc] at ht
  exact absurd ht (by decide)

/-- Claim C3: `EnsureNoError` with a nil error invokes `proc` exactly once
and returns its result directly; with a leveled `Error` at Warning level it
never invokes `proc` and returns nil; with a leveled `Error` at Blocking
(`ErrorLevel`) level it never invokes `proc` and returns the error
unchanged. -/
theorem ensureNoError_nil_warning_blocking :
    (∀ proc : Option GoError, EnsureNoError none proc = Outcome.ok (proc, true))
    ∧ (∀ (code : Nat) (msg : String) (cause : Option GoError) (proc : Option GoError),
        EnsureNoError (some (GoError.appValue code WarningLevel msg cause)) proc =
          Outcome.ok (none, false))
    ∧ (∀ (code : Nat) (msg : String) (cause : Option GoError) (proc : Option GoError),
        EnsureNoError (some (GoError.appValue code ErrorLevel msg cause)) proc =
          Outcome.ok (some (GoError.appValue code ErrorLevel msg cause), false)) := by
  refine ⟨fun proc => rfl, fun code msg cause proc => ?_, fun code msg cause proc => ?_⟩ <;>
    simp [EnsureNoError, WarningLevel, ErrorLevel]

/-- Claim C7: for a non-nil error of dynamic type `Error` whose level is
neither `WarningLevel` nor `ErrorLevel`, `EnsureNoError` panics with the
error value and returns nothing. -/
theorem ensureNoError_unknown_level_panics (code level : Nat) (msg : String)
    (cause : Option GoError) (proc : Option GoError)
    (h1 : level ≠ WarningLevel) (h2 : level ≠ ErrorLevel) :
    EnsureNoError (some (GoError.appValue code level msg cause)) proc =
      Outcome.panic (PanicPayload.err (GoError.appValue code level msg cause)) := by
  simp [EnsureNoError, h1, h2]

/-- Witness for C7 at the concrete unrecognized level 2. -/
theorem ensureNoError_unknown_level_panics_witness :
    EnsureNoError (some (GoError.appValue 0 2 "boom" none)) none =
      Outcome.panic (PanicPayload.err (GoError.appValue 0 2 "boom" none)) :=
  ensureNoError_unknown_level_panics 0 2 "boom" none none (by decide) (by decide)

/-- Claim C5: when the attributes response has its application error slot
set, the walk returns that error with an empty visit trace — the walker is
invoked zero times — no matter how many attributes the response carries. -/
theorem walk_app_error_no_visits (env : ParserEnv)
    (call : AttributesRequest → Except GoError AttributesResponse)
    (resource attributeName : String) (walker : HclAttribute → Option GoError)
    (response : AttributesResponse) (e : GoError)
    (hcall : call ⟨resource, attributeName⟩ = Except.ok response)
    (herr : response.Err = some e) :
    WalkResourceAttributes env call resource attributeName walker =
      Outcome.ok ([], some e) := by
  simp [WalkResourceAttributes, hcall, herr]

/-- Witness for C5: the host reports an application error next to a
non-empty attribute list, and no attribute is visited. -/
theorem walk_app_error_no_visits_witness :
    WalkResourceAttributes envW
      (fun _ => Except.ok ⟨[attrW, attrW2], some (GoError.foreign 0 "host failure")⟩)
      "aws_instance" "instance_type" (fun _ => none) =
      Outcome.ok ([], some (GoError.foreign 0 "host failure")) :=
  walk_app_error_no_visits envW
    (fun _ => Except.ok ⟨[attrW, attrW2], some (GoError.foreign 0 "host failure")⟩)
    "aws_instance" "instance_type" (fun _ => none)
    ⟨[attrW, attrW2], some (GoError.foreign 0 "host failure")⟩
    (GoError.foreign 0 "host failure") rfl rfl

/-- Claim C6: expression decode dispatches solely on the filename suffix —
`.tf` selects the native-syntax parser on the bytes at the given start
position, `.tf.json` selects the JSON-syntax parser with the same
signature, and any other suffix makes the decode panic instead of
returning a value. -/
theorem parseExpression_dispatch (env : ParserEnv) (src : List Nat)
    (filename : String) (start : Pos) :
    (hasSuffix filename ".tf" = true →
      parseExpression env src filename start =
        Outcome.ok (env.nativeParse src filename start))
    ∧ (hasSuffix filename ".tf.json" = true →
      parseExpression env src filename start =
        Outcome.ok (env.jsonParse src filename start))
    ∧ (hasSuffix filename ".tf" = false → hasSuffix filename ".tf.json" = false →
      parseExpression env src filename start =
        Outcome.panic (PanicPayload.str ("Unexpected file: " ++ filename))) := by
  refine ⟨fun h => by simp [parseExpression, h], fun h => ?_,
    fun h1 h2 => by simp [parseExpression, h1, h2]⟩
  have hn := hasSuffix_tfjson_not_tf filename h
  simp [parseExpression, hn, h]

/-- Witness for C6 on the three concrete filenames `main.tf`,
`main.tf.json` and `main.txt`. -/
theorem parseExpression_dispatch_witness :
    parseExpression envW [34, 116, 34] "main.tf" ⟨1, 1, 0⟩ =
      Outcome.ok (envW.nativeParse [34, 116, 34] "main.tf" ⟨1, 1, 0⟩)
    ∧ parseExpression envW [34, 116, 34] "main.tf.json" ⟨1, 1, 0⟩ =
      Outcome.ok (envW.jsonParse [34, 116, 34] "main.tf.json" ⟨1, 1, 0⟩)
    ∧ parseExpression envW [34, 116, 34] "main.txt" ⟨1, 1, 0⟩ =
      Outcome.panic (PanicPayload.str ("Unexpected file: " ++ "main.txt")) :=
  ⟨(parseExpression_dispatch envW [34, 116, 34] "main.tf" ⟨1, 1, 0⟩).1 (by decide),
   (parseExpression_dispatch envW [34, 116, 34] "main.tf.json" ⟨1, 1, 0⟩).2.1 (by decide),
   (parseExpression_dispatch envW [34, 116, 34] "main.txt" ⟨1, 1, 0⟩).2.2
     (by decide) (by decide)⟩

/-- Claim C1: when the source-file read succeeds, `EmitIssue` returns a
non-nil error whenever the host reports an application error for the
round-trip (delivered through `net/rpc` as a server error), and it also
propagates transport errors unchanged. -/
theorem emitIssue_propagates_errors
    (fs : String → Except GoError (List Nat)) (call : EmitIssueRequest → RpcOutcome)
    (rule : Rule) (message : String) (location : Range) (meta : Metadata)
    (src : List Nat)
    (hsrc : fs meta.Expr.range.Filename = Except.ok src) :
    (∀ m : String,
      call ⟨newObjectFromRule rule, message, location,
        Range.SliceBytes meta.Expr.range src, meta.Expr.range⟩ = RpcOutcome.hostErr m →
      (EmitIssue fs call rule message location meta).2 = some (GoError.serverError m))
    ∧ (∀ e : GoError,
      call ⟨newObjectFromRule rule, message, location,
        Range.SliceBytes meta.Expr.range src, meta.Expr.range⟩ = RpcOutcome.transportErr e →
      (EmitIssue fs call rule message location meta).2 = some e) := by
  constructor <;> intro x hcall <;> simp [EmitIssue, hsrc, hcall, callError]

/-- Concrete sample rule used by witnesses. -/
def ruleW : Rule := ⟨"aws_instance_invalid_type", 1, true⟩

/-- Concrete sample metadata used by witnesses. -/
def metaW : Metadata := ⟨⟨rangeW, 5⟩⟩

/-- Concrete sample source bytes used by witnesses. -/
def srcW : List Nat := [34, 116, 50, 46, 109, 105, 99, 114, 111, 34]

/-- Witness for C1: a concrete emission whose host reports an application
error; `EmitIssue` returns the corresponding non-nil server error. -/
theorem emitIssue_propagates_errors_witness :
    (EmitIssue (fun _ => Except.ok srcW) (fun _ => RpcOutcome.hostErr "app failure")
      ruleW "invalid type" rangeW metaW).2 =
      some (GoError.serverError "app failure") :=
  (emitIssue_propagates_errors (fun _ => Except.ok srcW)
    (fun _ => RpcOutcome.hostErr "app failure") ruleW "invalid type" rangeW metaW
    srcW rfl).1 "app failure" rfl

/-- Claim C9: both `EvaluateExpr` and `EmitIssue` read the whole source
file named by the expression's range; on a read failure the I/O error is
returned and no RPC request is sent, and on a successful read the request
handed to the transport carries exactly the expression's recorded byte
range sliced out of the file together with that range. -/
theorem encode_reads_file_and_slices_range
    (fs fs2 : String → Except GoError (List Nat))
    (call : EvalExprRequest → Except GoError EvalExprResponse)
    (call2 : EmitIssueRequest → RpcOutcome)
    (fromCtyValue : CtyValue → Nat → Option GoError)
    (expr : Expr) (ret : Nat)
    (rule : Rule) (message : String) (location : Range) (meta : Metadata) :
    (∀ e, fs expr.range.Filename = Except.error e →
      EvaluateExpr fs call fromCtyValue expr ret = (none, some e))
    ∧ (∀ src, fs expr.range.Filename = Except.ok src →
      (EvaluateExpr fs call fromCtyValue expr ret).1 =
        some ⟨Range.SliceBytes expr.range src, expr.range, ret⟩)
    ∧ (∀ e, fs2 meta.Expr.range.Filename = Except.error e →
      EmitIssue fs2 call2 rule message location meta = (none, some e))
    ∧ (∀ src, fs2 meta.Expr.range.Filename = Except.ok src →
      (EmitIssue fs2 call2 rule message location meta).1 =
        some ⟨newObjectFromRule rule, message, location,
          Range.SliceBytes meta.Expr.range src, meta.Expr.range⟩) := by
  refine ⟨fun e h => by simp [EvaluateExpr, h], fun src h => ?_,
    fun e h => by simp [EmitIssue, h], fun src h => ?_⟩
  · simp only [EvaluateExpr, h]
    cases hc : call ⟨Range.SliceBytes expr.range src, expr.range, ret⟩ with
    | error e => simp [hc]
    | ok response =>
      cases hr : response.Err with
      | some e => simp [hc, hr]
      | none =>
        cases hv : fromCtyValue response.Val ret with
        | some convErr => simp [hc, hr, hv]
        | none => simp [hc, hr, hv]
  · simp only [EmitIssue, h]
    cases hc : callError (call2 ⟨newObjectFromRule rule, message, location,
        Range.SliceBytes meta.Expr.range src, meta.Expr.range⟩) with
    | some e => simp [hc]
    | none => simp [hc]

/-- Witness for C9: a failing read makes `EvaluateExpr` return the I/O
error with no request sent, and a successful read makes `EmitIssue` send
a request slicing exactly the recorded byte range out of the file. -/
theorem encode_reads_file_and_slices_range_witness :
    EvaluateExpr (fun _ => Except.error (GoError.foreign 1 "no such file"))
      (fun _ => Except.ok ⟨⟨7⟩, none⟩) (fun _ _ => none) ⟨rangeW, 5⟩ 0 =
      (none, some (GoError.foreign 1 "no such file"))
    ∧ (EmitIssue (fun _ => Except.ok srcW) (fun _ => RpcOutcome.ok)
        ruleW "invalid type" rangeW metaW).1 =
      some ⟨newObjectFromRule ruleW, "invalid type", rangeW,
        Range.SliceBytes metaW.Expr.range srcW, metaW.Expr.range⟩ :=
  ⟨(encode_reads_file_and_slices_range
      (fun _ => Except.error (GoError.foreign 1 "no such file"))
      (fun _ => Except.ok srcW)
      (fun _ => Except.ok ⟨⟨7⟩, none⟩) (fun _ => RpcOutcome.ok) (fun _ _ => none)
      ⟨rangeW, 5⟩ 0 ruleW "invalid type" rangeW metaW).1
      (GoError.foreign 1 "no such file") rfl,
   (encode_reads_file_and_slices_range
      (fun _ => Except.error (GoError.foreign 1 "no such file"))
      (fun _ => Except.ok srcW)
      (fun _ => Except.ok ⟨⟨7⟩, none⟩) (fun _ => RpcOutcome.ok) (fun _ _ => none)
      ⟨rangeW, 5⟩ 0 ruleW "invalid type" rangeW metaW).2.2.2 srcW rfl⟩

/-- Helper: the exact error `EvaluateExpr` returns when the read and the
call succeed, the response carries no application error, and the value
conversion fails. -/
theorem evaluateExpr_conv_fail
    (fs : String → Except GoError (List Nat))
    (call : EvalExprRequest → Except GoError EvalExprResponse)
    (fromCtyValue : CtyValue → Nat → Option GoError)
    (expr : Expr) (ret : Nat) (src : List Nat) (response : EvalExprResponse)
    (convErr : GoError)
    (hsrc : fs expr.range.Filename = Except.ok src)
    (hcall : call ⟨Range.SliceBytes expr.range src, expr.range, ret⟩ = Except.ok response)
    (herr : response.Err = none)
    (hconv : fromCtyValue response.Val ret = some convErr) :
    (EvaluateExpr fs call fromCtyValue expr ret).2 =
      some (GoError.appPtr TypeMismatchError ErrorLevel
        ("Invalid type expression in " ++ expr.range.Filename ++ ":"
          ++ toString expr.range.Start.Line)
        (some convErr)) := by
  simp [EvaluateExpr, hsrc, hcall, herr, hconv]

/-- Claim C4: when the read and the transport call succeed and the
response carries no application error, a failing conversion of the dynamic
result makes `EvaluateExpr` return a `*Error` with code
`TypeMismatchError` at Blocking (`ErrorLevel`) level whose message names
the expression's filename and start line and whose cause is the underlying
conversion error — never a nil error. -/
theorem evaluateExpr_type_mismatch
    (fs : String → Except GoError (List Nat))
    (call : EvalExprRequest → Except GoError EvalExprResponse)
    (fromCtyValue : CtyValue → Nat → Option GoError)
    (expr : Expr) (ret : Nat) (src : List Nat) (response : EvalExprResponse)
    (convErr : GoError)
    (hsrc : fs expr.range.Filename = Except.ok src)
    (hcall : call ⟨Range.SliceBytes expr.range src, expr.range, ret⟩ = Except.ok response)
    (herr : response.Err = none)
    (hconv : fromCtyValue response.Val ret = some convErr) :
    (EvaluateExpr fs call fromCtyValue expr ret).2 =
      some (GoError.appPtr TypeMismatchError ErrorLevel
        ("Invalid type expression in " ++ expr.range.Filename ++ ":"
          ++ toString expr.range.Start.Line)
        (some convErr)) :=
  evaluateExpr_conv_fail fs call fromCtyValue expr ret src response convErr
    hsrc hcall herr hconv

/-- Witness for C4 on concrete data: the conversion failure surfaces as a
Blocking `TypeMismatchError` naming `main.tf` line 1 with the conversion
failure as cause. -/
theorem evaluateExpr_type_mismatch_witness :
    (EvaluateExpr (fun _ => Except.ok srcW)
      (fun _ => Except.ok ⟨⟨7⟩, none⟩)
      (fun _ _ => some (GoError.foreign 2 "incompatible shape"))
      ⟨rangeW, 5⟩ 0).2 =
      some (GoError.appPtr TypeMismatchError ErrorLevel
        ("Invalid type expression in " ++ "main.tf" ++ ":" ++ toString (1 : Nat))
        (some (GoError.foreign 2 "incompatible shape"))) :=
  evaluateExpr_type_mismatch (fun _ => Except.ok srcW)
    (fun _ => Except.ok ⟨⟨7⟩, none⟩)
    (fun _ _ => some (GoError.foreign 2 "incompatible shape"))
    ⟨rangeW, 5⟩ 0 srcW ⟨⟨7⟩, none⟩ (GoError.foreign 2 "incompatible shape")
    rfl rfl rfl rfl

/-- Claim C10: `EnsureNoError` recognizes the leveled error only at the
value dynamic type; every `*Error` — whatever its level, including the
`TypeMismatchError` that `EvaluateExpr` itself constructs — takes the
foreign-error branch and is returned unchanged without invoking `proc`,
without being swallowed at Warning level and without panicking at an
unrecognized level. -/
theorem ensureNoError_ptr_not_recognized :
    (∀ (code level : Nat) (msg : String) (cause : Option GoError) (proc : Option GoError),
      EnsureNoError (some (GoError.appPtr code level msg cause)) proc =
        Outcome.ok (some (GoError.appPtr code level msg cause), false))
    ∧ (∀ (fs : String → Except GoError (List Nat))
        (call : EvalExprRequest → Except GoError EvalExprResponse)
        (fromCtyValue : CtyValue → Nat → Option GoError)
        (expr : Expr) (ret : Nat) (src : List Nat) (response : EvalExprResponse)
        (convErr : GoError) (proc : Option GoError),
        fs expr.range.Filename = Except.ok src →
        call ⟨Range.SliceBytes expr.range src, expr.range, ret⟩ = Except.ok response →
        response.Err = none →
        fromCtyValue response.Val ret = some convErr →
        EnsureNoError (EvaluateExpr fs call fromCtyValue expr ret).2 proc =
          Outcome.ok ((EvaluateExpr fs call fromCtyValue expr ret).2, false)) := by
  constructor
  · intro code level msg cause proc
    rfl
  · intro fs call fromCtyValue expr ret src response convErr proc hsrc hcall herr hconv
    have hres := evaluateExpr_conv_fail fs call fromCtyValue expr ret src response
      convErr hsrc hcall herr hconv
    rw [hres]
    rfl

/-- Witness for C10: the concrete type-mismatch error built by
`EvaluateExpr` — a Blocking-level `*Error` — passes through
`EnsureNoError` unchanged without running `proc`. -/
theorem ensureNoError_ptr_not_recognized_witness :
    EnsureNoError (EvaluateExpr (fun _ => Except.ok srcW)
        (fun _ => Except.ok ⟨⟨7⟩, none⟩)
        (fun _ _ => some (GoError.foreign 2 "incompatible shape"))
        ⟨rangeW, 5⟩ 0).2 none =
      Outcome.ok ((EvaluateExpr (fun _ => Except.ok srcW)
        (fun _ => Except.ok ⟨⟨7⟩, none⟩)
        (fun _ _ => some (GoError.foreign 2 "incompatible shape"))
        ⟨rangeW, 5⟩ 0).2, false) :=
  ensureNoError_ptr_not_recognized.2 (fun _ => Except.ok srcW)
    (fun _ => Except.ok ⟨⟨7⟩, none⟩)
    (fun _ _ => some (GoError.foreign 2 "incompatible shape"))
    ⟨rangeW, 5⟩ 0 srcW ⟨⟨7⟩, none⟩ (GoError.foreign 2 "incompatible shape") none
    rfl rfl rfl rfl

/-- Helper: when every attribute decodes cleanly and the walker accepts
every materialized attribute, the loop visits all of them in order and
returns nil. -/
theorem walkAttributes_all_pass (env : ParserEnv) (walker : HclAttribute → Option GoError)
    (attrs : List Attribute)
    (hdec : ∀ a ∈ attrs, decodesClean env a)
    (hw : ∀ a ∈ attrs, walker (matAttr env a) = none) :
    walkAttributes env walker attrs = Outcome.ok (attrs.map (matAttr env), none) := by
  induction attrs with
  | nil => rfl
  | cons a rest ih =>
    obtain ⟨e, d, hd, hcl⟩ := hdec a (List.mem_cons_self a rest)
    have hmat : matAttr env a = ⟨a.Name, e, a.Range, a.NameRange⟩ := by
      simp [matAttr, hd]
    have hwa : walker ⟨a.Name, e, a.Range, a.NameRange⟩ = none := by
      rw [← hmat]; exact hw a (List.mem_cons_self a rest)
    have ihr := ih (fun x hx => hdec x (List.mem_cons_of_mem a hx))
      (fun x hx => hw x (List.mem_cons_of_mem a hx))
    simp [walkAttributes, hd, hcl, hwa, ihr, hmat]

/-- Helper: when every attribute decodes cleanly, the walker accepts the
materialized attributes of `pre` and rejects `m` with error `e`, the loop
stops right after `m` and returns `e` unchanged. -/
theorem walkAttributes_first_err (env : ParserEnv) (walker : HclAttribute → Option GoError)
    (m : HclAttribute) (post : List HclAttribute) (e : GoError) :
    ∀ (attrs : List Attribute) (pre : List HclAttribute),
      (∀ a ∈ attrs, decodesClean env a) →
      attrs.map (matAttr env) = pre ++ m :: post →
      (∀ x ∈ pre, walker x = none) →
      walker m = some e →
      walkAttributes env walker attrs = Outcome.ok (pre ++ [m], some e) := by
  intro attrs
  induction attrs with
  | nil =>
    intro pre _ hmap _ _
    exact absurd hmap (by simp)
  | cons a rest ih =>
    intro pre hdec hmap hpre hm
    obtain ⟨ex, d, hd, hcl⟩ := hdec a (List.mem_cons_self a rest)
    have hmat : matAttr env a = ⟨a.Name, ex, a.Range, a.NameRange⟩ := by
      simp [matAttr, hd]
    cases pre with
    | nil =>
      simp only [List.map_cons, List.nil_append, List.cons.injEq] at hmap
      obtain ⟨hma, _⟩ := hmap
      have hwm : walker ⟨a.Name, ex, a.Range, a.NameRange⟩ = some e := by
        rw [← hmat, hma]; exact hm
      simp [walkAttributes, hd, hcl, hwm]
      rw [← hmat]
      exact hma
    | cons p pre' =>
      simp only [List.map_cons, List.cons_append, List.cons.injEq] at hmap
      obtain ⟨hpa, hrest⟩ := hmap
      have hwp : walker ⟨a.Name, ex, a.Range, a.NameRange⟩ = none := by
        rw [← hmat, hpa]; exact hpre p (List.mem_cons_self p pre')
      have ihr := ih pre' (fun x hx => hdec x (List.mem_cons_of_mem a hx)) hrest
        (fun x hx => hpre x (List.mem_cons_of_mem p hx)) hm
      simp [walkAttributes, hd, hcl, hwp, ihr]
      rw [← hmat]
      exact hpa

/-- Helper: when the walker accepts every cleanly-decoding attribute of
`pre` and the next attribute's decode yields diagnostics with errors, the
loop stops before visiting it and returns the diagnostics as the error. -/
theorem walkAttributes_decode_err (env : ParserEnv) (walker : HclAttribute → Option GoError)
    (a : Attribute) (post : List Attribute) (ex : Expr) (d : List Diagnostic)
    (hd : decodeAttr env a = Outcome.ok (ex, d)) (hcl : HasErrors d = true) :
    ∀ (pre : List Attribute),
      (∀ x ∈ pre, decodesClean env x) →
      (∀ x ∈ pre, walker (matAttr env x) = none) →
      walkAttributes env walker (pre ++ a :: post) =
        Outcome.ok (pre.map (matAttr env), some (GoError.diagnostics d)) := by
  intro pre
  induction pre with
  | nil =>
    intro _ _
    simp [walkAttributes, hd, hcl]
  | cons p pre' ih =>
    intro hdec hw
    obtain ⟨pe, pd, hpd, hpcl⟩ := hdec p (List.mem_cons_self p pre')
    have hmat : matAttr env p = ⟨p.Name, pe, p.Range, p.NameRange⟩ := by
      simp [matAttr, hpd]
    have hwp : walker ⟨p.Name, pe, p.Range, p.NameRange⟩ = none := by
      rw [← hmat]; exact hw p (List.mem_cons_self p pre')
    have ihr := ih (fun x hx => hdec x (List.mem_cons_of_mem p hx))
      (fun x hx => hw x (List.mem_cons_of_mem p hx))
    simp [walkAttributes, hpd, hpcl, hwp, ihr, hmat]

/-- Claim C2: for a walk whose call succeeds, whose response carries no
application error and all of whose attributes decode cleanly, a passing
walker is invoked exactly once per attribute in response order, and a
walker that first fails on the k-th materialized attribute (`pre` of
length k-1 before it) is invoked exactly k times and the walk returns its
error unchanged. -/
theorem walk_visits_in_order_and_stops_on_walker_error (env : ParserEnv)
    (call : AttributesRequest → Except GoError AttributesResponse)
    (resource attributeName : String) (walker : HclAttribute → Option GoError)
    (response : AttributesResponse)
    (hcall : call ⟨resource, attributeName⟩ = Except.ok response)
    (herr : response.Err = none)
    (hdec : ∀ a ∈ response.Attributes, decodesClean env a) :
    ((∀ a ∈ response.Attributes, walker (matAttr env a) = none) →
      WalkResourceAttributes env call resource attributeName walker =
        Outcome.ok (response.Attributes.map (matAttr env), none))
    ∧ (∀ (pre : List HclAttribute) (m : HclAttribute) (post : List HclAttribute)
        (e : GoError),
        response.Attributes.map (matAttr env) = pre ++ m :: post →
        (∀ x ∈ pre, walker x = none) →
        walker m = some e →
        WalkResourceAttributes env call resource attributeName walker =
          Outcome.ok (pre ++ [m], some e)) := by
  have hred : WalkResourceAttributes env call resource attributeName walker =
      walkAttributes env walker response.Attributes := by
    simp [WalkResourceAttributes, hcall, herr]
  constructor
  · intro hw
    rw [hred]
    exact walkAttributes_all_pass env walker response.Attributes hdec hw
  · intro pre m post e hmap hpre hm
    rw [hred]
    exact walkAttributes_first_err env walker m post e response.Attributes pre
      hdec hmap hpre hm

/-- Witness for C2: with two cleanly-decoding attributes, a passing walker
is invoked exactly twice in response order, and a walker failing on its
first invocation is invoked exactly once and its error is returned
unchanged. -/
theorem walk_visits_in_order_and_stops_on_walker_error_witness :
    WalkResourceAttributes envW (fun _ => Except.ok ⟨[attrW, attrW2], none⟩)
      "aws_instance" "instance_type" (fun _ => none) =
      Outcome.ok ([matAttr envW attrW, matAttr envW attrW2], none)
    ∧ WalkResourceAttributes envW (fun _ => Except.ok ⟨[attrW, attrW2], none⟩)
      "aws_instance" "instance_type" (fun _ => some (GoError.foreign 3 "stop")) =
      Outcome.ok ([matAttr envW attrW], some (GoError.foreign 3 "stop")) :=
  ⟨(walk_visits_in_order_and_stops_on_walker_error envW
      (fun _ => Except.ok ⟨[attrW, attrW2], none⟩) "aws_instance" "instance_type"
      (fun _ => none) ⟨[attrW, attrW2], none⟩ rfl rfl
      (by
        intro x hx
        simp only [List.mem_cons, List.not_mem_nil, or_false] at hx
        rcases hx with rfl | rfl <;> exact ⟨_, [], rfl, rfl⟩)).1
    (by intro a _; rfl),
   (walk_visits_in_order_and_stops_on_walker_error envW
      (fun _ => Except.ok ⟨[attrW, attrW2], none⟩) "aws_instance" "instance_type"
      (fun _ => some (GoError.foreign 3 "stop")) ⟨[attrW, attrW2], none⟩ rfl rfl
      (by
        intro x hx
        simp only [List.mem_cons, List.not_mem_nil, or_false] at hx
        rcases hx with rfl | rfl <;> exact ⟨_, [], rfl, rfl⟩)).2
    [] (matAttr envW attrW) [matAttr envW attrW2] (GoError.foreign 3 "stop")
    rfl (by intro x hx; cases hx) rfl⟩

/-- A parser environment used by the C8 witness: it reports an error
diagnostic exactly when the expression bytes are empty. -/
def envBadW : ParserEnv :=
  ⟨fun src f p =>
      (⟨⟨f, p, p⟩, 1⟩, if src = [] then [⟨DiagnosticSeverity.diagError, "bad expr"⟩] else []),
   fun _ f p => (⟨⟨f, p, p⟩, 2⟩, [])⟩

/-- A wire attribute whose decode fails under `envBadW` (empty expression
bytes). -/
def attrBadW : Attribute := ⟨"bad", [], rangeW, rangeW, rangeW⟩

/-- Claim C8: when the call succeeds and the response has no application
error, if every attribute before some attribute decodes cleanly and passes
the walker but that attribute's decode yields diagnostics with errors, the
walk aborts there: the diagnostics become the call's error, and neither
that attribute nor any later one is passed to the walker. -/
theorem walk_decode_error_aborts (env : ParserEnv)
    (call : AttributesRequest → Except GoError AttributesResponse)
    (resource attributeName : String) (walker : HclAttribute → Option GoError)
    (response : AttributesResponse)
    (pre : List Attribute) (a : Attribute) (post : List Attribute)
    (ex : Expr) (d : List Diagnostic)
    (hcall : call ⟨resource, attributeName⟩ = Except.ok response)
    (herr : response.Err = none)
    (hattrs : response.Attributes = pre ++ a :: post)
    (hdec : ∀ x ∈ pre, decodesClean env x)
    (hw : ∀ x ∈ pre, walker (matAttr env x) = none)
    (hd : decodeAttr env a = Outcome.ok (ex, d))
    (hcl : HasErrors d = true) :
    WalkResourceAttributes env call resource attributeName walker =
      Outcome.ok (pre.map (matAttr env), some (GoError.diagnostics d)) := by
  have hred : WalkResourceAttributes env call resource attributeName walker =
      walkAttributes env walker response.Attributes := by
    simp [WalkResourceAttributes, hcall, herr]
  rw [hred, hattrs]
  exact walkAttributes_decode_err env walker a post ex d hd hcl pre hdec hw

/-- Witness for C8: the first attribute decodes cleanly and is visited,
the second attribute's decode yields an error diagnostic, and the walk
returns those diagnostics having never passed the second attribute to the
walker. -/
theorem walk_decode_error_aborts_witness :
    WalkResourceAttributes envBadW
      (fun _ => Except.ok ⟨[attrW, attrBadW], none⟩)
      "aws_instance" "instance_type" (fun _ => none) =
      Outcome.ok ([attrW].map (matAttr envBadW),
        some (GoError.diagnostics [⟨DiagnosticSeverity.diagError, "bad expr"⟩])) :=
  walk_decode_error_aborts envBadW
    (fun _ => Except.ok ⟨[attrW, attrBadW], none⟩)
    "aws_instance" "instance_type" (fun _ => none)
    ⟨[attrW, attrBadW], none⟩ [attrW] attrBadW []
    ⟨⟨"main.tf", ⟨1, 1, 0⟩, ⟨1, 1, 0⟩⟩, 1⟩
    [⟨DiagnosticSeverity.diagError, "bad expr"⟩]
    rfl rfl rfl
    (by
      intro x hx
      simp only [List.mem_cons, List.not_mem_nil, or_false] at hx
      rcases hx with rfl
      exact ⟨_, [], rfl, rfl⟩)
    (by intro x _; rfl)
    rfl rfl

end Tflint
